import Mathlib

/-!
Shallow embedding of the mask-authoring subsystem of the AI photo editor
(`src/App.tsx`, component `ImageEditor`): pixel buffers, the mask
serializer of `handleSubmit`, `resizeImage`, the auto-mask normalizer of
`handleAutoMask`, `drawLine` compositing, `floodFill`, and the
pointer-gesture dispatch of `handleMouseDown` / `handleMouseMove`.
Canvas pixel stores are `Uint8ClampedArray`s, so channels are naturals in
[0,255]; values computed in JavaScript doubles (opacities, coordinates,
scale ratios) are modelled as rationals with explicit rounding at the
points where the code stores them into a byte.
-/

namespace AIPhotoEditor

/-- One RGBA pixel of an `ImageData` buffer (four `Uint8ClampedArray` entries). -/
structure Pixel where
  r : Nat
  g : Nat
  b : Nat
  a : Nat
deriving DecidableEq

/-- A canvas pixel buffer: dimensions plus per-coordinate pixel lookup
(`data[(y * width + x) * 4 ..]` in the source, addressed here by `(x, y)`). -/
structure Buf where
  width : Nat
  height : Nat
  data : Nat → Nat → Pixel

/-- JavaScript `Math.round`: round half toward positive infinity. -/
def jsRound (q : ℚ) : ℤ := ⌊q + 1 / 2⌋

/-- Storing a JavaScript number into a `Uint8ClampedArray` entry: clamp to
[0,255] and round to nearest, ties to even (ECMAScript `ToUint8Clamp`). -/
def uint8Clamp (q : ℚ) : Nat :=
  if q ≤ 0 then 0
  else if 255 ≤ q then 255
  else
    (if q - (⌊q⌋ : ℚ) < 1 / 2 then ⌊q⌋
     else if (1 : ℚ) / 2 < q - (⌊q⌋ : ℚ) then ⌊q⌋ + 1
     else if 2 ∣ ⌊q⌋ then ⌊q⌋ else ⌊q⌋ + 1).toNat

/-- Alpha channel of canvas `source-over` compositing on byte values:
`αout = αsrc + αdst·(255 − αsrc)/255`.  The division is exact in every case
this development relies on (opaque or fully transparent destination). -/
def srcOverA (sa da : Nat) : Nat := sa + da * (255 - sa) / 255

/-- Canvas `source-over` compositing of one source pixel over one destination
pixel, on byte values.  Colors follow the standard premultiplied formula
`cout = (cs·αs·255 + cd·αd·(255 − αs)) / (255·αout)`; a fully transparent
result is stored as all-zero bytes, as the canvas backing store does. -/
def srcOver (s d : Pixel) : Pixel :=
  let a := srcOverA s.a d.a
  if a = 0 then ⟨0, 0, 0, 0⟩
  else
    ⟨(s.r * s.a * 255 + d.r * d.a * (255 - s.a)) / (255 * a),
     (s.g * s.a * 255 + d.g * d.a * (255 - s.a)) / (255 * a),
     (s.b * s.a * 255 + d.b * d.a * (255 - s.a)) / (255 * a),
     a⟩

/-- `maskCtx.fillStyle = 'black'; maskCtx.fillRect(0, 0, w, h)`: an opaque
black buffer. -/
def fillBlack (w h : Nat) : Buf := ⟨w, h, fun _ _ => ⟨0, 0, 0, 255⟩⟩

/-- `ctx.clearRect(0, 0, w, h)` (`clearDrawing`): a fully transparent buffer. -/
def clearBuf (w h : Nat) : Buf := ⟨w, h, fun _ _ => ⟨0, 0, 0, 0⟩⟩

/-- `ctx.drawImage(src, 0, 0)` with default compositing: per-pixel
`source-over` of `src` over `dst`. -/
def drawImage (src dst : Buf) : Buf :=
  ⟨dst.width, dst.height, fun x y => srcOver (src.data x y) (dst.data x y)⟩

/-- The binarization loop of `handleSubmit` (lines 392-399): every pixel with
alpha above zero becomes opaque white; other pixels are left as they are. -/
def binarize (b : Buf) : Buf :=
  ⟨b.width, b.height, fun x y =>
    let p := b.data x y
    if p.a > 0 then ⟨255, 255, 255, 255⟩ else p⟩

/-- The mask-serialization step of `handleSubmit` (lines 376-400): fill the
mask canvas with opaque black, composite the drawing layer over it with
`drawImage`, then binarize by alpha. -/
def serializeMask (drawing : Buf) : Buf :=
  binarize (drawImage drawing (fillBlack drawing.width drawing.height))

/-- `MAX_DIMENSION` from the source. -/
def MAX_DIMENSION : Nat := 1024

/-- `resizeImage`: scale the longer side down to `MAX_DIMENSION` and the other
side by the same ratio (`Math.round(side * (MAX_DIMENSION / longer))`),
leaving images within the limit unchanged. -/
def resizeImage (width height : Nat) : Nat × Nat :=
  if width > MAX_DIMENSION ∨ height > MAX_DIMENSION then
    if width > height then
      (MAX_DIMENSION,
       (jsRound ((height : ℚ) * ((MAX_DIMENSION : ℚ) / (width : ℚ)))).toNat)
    else
      ((jsRound ((width : ℚ) * ((MAX_DIMENSION : ℚ) / (height : ℚ)))).toNat,
       MAX_DIMENSION)
  else (width, height)

/-- The classification of the auto-mask pixel loop (`isWhite`, line 333): a
segmentation pixel counts as background when all three color channels are
strictly above 200. -/
def isWhite (p : Pixel) : Prop := p.r > 200 ∧ p.g > 200 ∧ p.b > 200

instance (p : Pixel) : Decidable (isWhite p) := by
  unfold isWhite; infer_instance

/-- The pixel loop of `handleAutoMask` (lines 332-342): background pixels are
rewritten to the accent color `(192,132,252)` with alpha `255 * brushOpacity`
(stored into a clamped byte); all other pixels keep their color bytes and get
alpha 0. -/
def normalizeSeg (opacity : ℚ) (seg : Buf) : Buf :=
  ⟨seg.width, seg.height, fun x y =>
    let p := seg.data x y
    if isWhite p then ⟨192, 132, 252, uint8Clamp (255 * opacity)⟩
    else ⟨p.r, p.g, p.b, 0⟩⟩

/-- Pixels whose alpha is zero read back from a canvas as all-zero bytes
(premultiplied backing store); visible pixels are unchanged. -/
def dropInvisible (b : Buf) : Buf :=
  ⟨b.width, b.height, fun x y =>
    let p := b.data x y
    if p.a = 0 then ⟨0, 0, 0, 0⟩ else p⟩

/-- The mask-buffer replacement performed by `handleAutoMask` (lines 328-346)
on segmentation output `Y` when the drawing canvas holds `X`: normalize `Y`
on the temp canvas, `clearDrawing()` the drawing canvas, then `drawImage` the
temp canvas over the cleared drawing canvas. -/
def handleAutoMaskResult (opacity : ℚ) (X Y : Buf) : Buf :=
  drawImage (normalizeSeg opacity Y) (clearBuf X.width X.height)

/-- The UI state of `ImageEditor` that `handleSubmit` reads and writes. -/
structure EditorState where
  prompt : String
  editedImage : Option String
  upscaledImage : Option String
  error : Option String
  isLoading : Bool
  drawing : Buf

/-- The character class removed by JavaScript `String.prototype.trim`
(restricted to the ASCII whitespace and line-terminator characters). -/
def jsWhitespace (c : Char) : Prop :=
  c = ' ' ∨ c = '\t' ∨ c = '\n' ∨ c = '\r' ∨ c = '\x0b' ∨ c = '\x0c'

instance (c : Char) : Decidable (jsWhitespace c) := by
  unfold jsWhitespace; infer_instance

/-- The guard `!prompt.trim()` of `handleSubmit` (line 369): the trimmed
prompt is the empty string, i.e. every character of the prompt is
whitespace. -/
def trimmedEmpty (s : String) : Prop := ∀ c ∈ s.toList, jsWhitespace c

instance (s : String) : Decidable (trimmedEmpty s) := by
  unfold trimmedEmpty; infer_instance

/-- `handleSubmit` (lines 360-415), with the remote edit call
(`editImageWithMask`, reached through the service layer) as an oracle from
the serialized mask to either a result payload or a rejection message; a
missing image payload surfaces as a rejection from the service layer.
Returns the resulting state together with whether the remote call was made.
The four state writes at the top (`setIsLoading(true)`, `setError(null)`,
`setEditedImage(null)`, `setUpscaledImage(null)`) happen before the
validation guard, exactly as in the source. -/
def handleSubmit (remote : Buf → Except String String) (s : EditorState) :
    EditorState × Bool :=
  let s1 : EditorState :=
    { s with isLoading := true, error := none,
             editedImage := none, upscaledImage := none }
  if trimmedEmpty s1.prompt then
    ({ s1 with error := some "Please draw a mask and enter a prompt.",
               isLoading := false }, false)
  else
    match remote (serializeMask s1.drawing) with
    | .ok result =>
        ({ s1 with editedImage := some ("data:image/png;base64," ++ result),
                   isLoading := false }, true)
    | .error msg =>
        ({ s1 with error := some msg, isLoading := false }, true)

/-- The drawing tools of the editor. -/
inductive Tool
  | brush
  | eraser
  | rectangle
  | circle
  | fill
deriving DecidableEq

/-- The alpha channel of the mask layer, with canvas compositing performed in
exact arithmetic on [0,1] coverage values (the canvas rasterizer works in
floating point before quantizing to bytes). -/
structure AlphaBuf where
  width : Nat
  height : Nat
  alpha : Nat → Nat → ℚ

/-- Alpha effect of one `drawLine` stroke segment (lines 141-155) on the mask
layer.  `cov` is the set of pixels fully covered by the rasterized
round-capped segment of the configured width; on covered pixels the stroke
composites source alpha `op` with `destination-out` for the eraser
(`αdst · (1 − op)`) and `source-over` otherwise (`op + αdst · (1 − op)`). -/
def drawLineA (tool : Tool) (op : ℚ) (cov : Nat → Nat → Bool)
    (m : AlphaBuf) : AlphaBuf :=
  ⟨m.width, m.height, fun x y =>
    if cov x y then
      if tool = Tool.eraser then m.alpha x y * (1 - op)
      else op + m.alpha x y * (1 - op)
    else m.alpha x y⟩

/-- The fill-color tolerance of `floodFill` (line 206). -/
def tolerance : Nat := 30

/-- `Math.abs(c - c0) <= tolerance`, channel comparison of `floodFill`. -/
def channelClose (c c0 : Nat) : Prop := ((c : ℤ) - (c0 : ℤ)).natAbs ≤ tolerance

instance (c c0 : Nat) : Decidable (channelClose c c0) := by
  unfold channelClose; infer_instance

/-- Pointwise update of a pixel map at one coordinate. -/
def updatePix (d : Nat → Nat → Pixel) (x y : Nat) (p : Pixel) :
    Nat → Nat → Pixel :=
  fun a b => if a = x ∧ b = y then p else d a b

/-- The `while (pixelStack.length > 0)` loop of `floodFill` (lines 210-239):
pop a candidate; discard it if out of bounds or already visited; mark it
visited; skip it if the drawing layer already has alpha there; otherwise, if
its base-image color is within tolerance of the start color, paint it with
the fill color and push its four neighbors (in the source's push order, so
that the head of the list is the next pop).  `nv` is the set of pixels NOT
yet visited (the complement, within the buffer grid, of the `visited` array,
kept as a finite set so that its card is a termination measure), and `seeds`
is a ghost accumulator of the pixels from which neighbors were pushed (the
growth seeds). -/
def fillLoop (w h : Nat) (image : Nat → Nat → Pixel) (sR sG sB : Nat)
    (fillC : Pixel) (drawing : Nat → Nat → Pixel) (nv : Finset (Nat × Nat))
    (stack : List (Int × Int)) (seeds : List (Nat × Nat)) :
    (Nat → Nat → Pixel) × List (Nat × Nat) :=
  match stack with
  | [] => (drawing, seeds)
  | (x, y) :: rest =>
    if x < 0 ∨ (w : ℤ) ≤ x ∨ y < 0 ∨ (h : ℤ) ≤ y then
      fillLoop w h image sR sG sB fillC drawing nv rest seeds
    else
      if hv : (x.toNat, y.toNat) ∈ nv then
        if (drawing x.toNat y.toNat).a > 0 then
          fillLoop w h image sR sG sB fillC drawing
            (nv.erase (x.toNat, y.toNat)) rest seeds
        else
          if channelClose (image x.toNat y.toNat).r sR ∧
             channelClose (image x.toNat y.toNat).g sG ∧
             channelClose (image x.toNat y.toNat).b sB then
            fillLoop w h image sR sG sB fillC
              (updatePix drawing x.toNat y.toNat fillC)
              (nv.erase (x.toNat, y.toNat))
              ((x, y - 1) :: (x, y + 1) :: (x - 1, y) :: (x + 1, y) :: rest)
              ((x.toNat, y.toNat) :: seeds)
          else
            fillLoop w h image sR sG sB fillC drawing
              (nv.erase (x.toNat, y.toNat)) rest seeds
      else
        fillLoop w h image sR sG sB fillC drawing nv rest seeds
termination_by 5 * nv.card + stack.length
decreasing_by
  · simp only [List.length_cons]
    omega
  · have h1 : 1 ≤ nv.card := Finset.card_pos.mpr ⟨_, hv⟩
    simp only [List.length_cons, Finset.card_erase_of_mem hv]
    omega
  · have h1 : 1 ≤ nv.card := Finset.card_pos.mpr ⟨_, hv⟩
    simp only [List.length_cons, Finset.card_erase_of_mem hv]
    omega
  · have h1 : 1 ≤ nv.card := Finset.card_pos.mpr ⟨_, hv⟩
    simp only [List.length_cons, Finset.card_erase_of_mem hv]
    omega
  · simp only [List.length_cons]
    omega

/-- `floodFill` (lines 183-242): floor the start coordinates, read the start
color from the base image, build the fill color
`(192, 132, 252, Math.round(255 * brushOpacity))`, and run the work loop
with the single start candidate on the stack and no pixel visited.  Returns
the final drawing-layer pixels and the ghost list of growth seeds. -/
def floodFill (startPos : ℚ × ℚ) (opacity : ℚ) (image drawing : Buf) :
    (Nat → Nat → Pixel) × List (Nat × Nat) :=
  let startX : ℤ := ⌊startPos.1⌋
  let startY : ℤ := ⌊startPos.2⌋
  let sPix := image.data startX.toNat startY.toNat
  fillLoop image.width image.height image.data sPix.r sPix.g sPix.b
    ⟨192, 132, 252, (jsRound (255 * opacity)).toNat⟩
    drawing.data (Finset.range image.width ×ˢ Finset.range image.height)
    [(startX, startY)] []

/-- The gesture state of the editor: the `isDrawing` flag, the transient
refs (`lastPoint`, `shapeStartPoint`, `canvasSnapshot`), and the drawing
canvas content. -/
structure GestureState where
  isDrawing : Bool
  lastPoint : Option (ℚ × ℚ)
  shapeStart : Option (ℚ × ℚ)
  snapshot : Option Buf
  drawing : Buf

/-- `handleMouseDown` (lines 244-263): for the fill tool, run one flood fill
on the drawing canvas and return at once, leaving the `isDrawing` flag and
all gesture refs untouched; for the other tools, set the flag and record the
tool's gesture state (last point, or shape origin plus canvas snapshot). -/
def handleMouseDown (opacity : ℚ) (image : Buf) (tool : Tool)
    (pos : ℚ × ℚ) (st : GestureState) : GestureState :=
  if tool = Tool.fill then
    { st with drawing := ⟨st.drawing.width, st.drawing.height,
                          (floodFill pos opacity image st.drawing).1⟩ }
  else
    let st1 : GestureState := { st with isDrawing := true }
    if tool = Tool.brush ∨ tool = Tool.eraser then
      { st1 with lastPoint := some pos }
    else if tool = Tool.rectangle ∨ tool = Tool.circle then
      { st1 with shapeStart := some pos, snapshot := some st1.drawing }
    else st1

/-- `handleMouseMove` (lines 265-283), with the canvas raster primitives
`drawLine` and `drawShape` abstracted as buffer transformers `dl` and `ds`:
return unchanged unless `isDrawing` is set; for brush/eraser draw a segment
from the last point (when present) and record the current point; for
rectangle/circle restore the gesture snapshot and draw the shape preview. -/
def handleMouseMove (dl ds : (ℚ × ℚ) → (ℚ × ℚ) → Buf → Buf) (tool : Tool)
    (pos : ℚ × ℚ) (st : GestureState) : GestureState :=
  if st.isDrawing = false then st
  else if tool = Tool.brush ∨ tool = Tool.eraser then
    match st.lastPoint with
    | some lp => { st with drawing := dl lp pos st.drawing,
                           lastPoint := some pos }
    | none => { st with lastPoint := some pos }
  else if tool = Tool.rectangle ∨ tool = Tool.circle then
    match st.shapeStart, st.snapshot with
    | some sp, some snap => { st with drawing := ds sp pos snap }
    | _, _ => st
  else st

/-- Compositing any source pixel over opaque black yields a pixel with
nonzero alpha: `αout = αs + 255·(255 − αs)/255 = αs + (255 − αs)`. -/
theorem srcOverA_opaque_ne_zero (sa : Nat) : srcOverA sa 255 ≠ 0 := by
  unfold srcOverA
  omega

/-- Compositing a source pixel over a fully transparent destination returns
the source pixel itself, except that an invisible source reads back as
all-zero bytes. -/
theorem srcOver_transparent (s : Pixel) :
    srcOver s ⟨0, 0, 0, 0⟩ = if s.a = 0 then ⟨0, 0, 0, 0⟩ else s := by
  unfold srcOver srcOverA
  by_cases h : s.a = 0
  · simp [h]
  · have ha : s.a + 0 * (255 - s.a) / 255 = s.a := by omega
    rw [ha, if_neg h, if_neg h]
    have hpos : 0 < 255 * s.a := by omega
    have hc : ∀ c : Nat, (c * s.a * 255 + 0 * 0 * (255 - s.a)) / (255 * s.a) = c := by
      intro c
      have : c * s.a * 255 + 0 * 0 * (255 - s.a) = c * (255 * s.a) := by ring
      rw [this, Nat.mul_div_cancel _ hpos]
    rw [hc, hc, hc]

/-- The drawing-layer content produced by the C1 scenario: a 100×100 mask
canvas holding one filled rectangle stamped by `drawShape` from `(10,10)` to
`(50,50)` at opacity 1.0, i.e. accent-colored opaque pixels exactly on
`[10,50) × [10,50)`. -/
def rectDrawing100 : Buf :=
  ⟨100, 100, fun x y =>
    if 10 ≤ x ∧ x < 50 ∧ 10 ≤ y ∧ y < 50 then ⟨192, 132, 252, 255⟩
    else ⟨0, 0, 0, 0⟩⟩

/-- Claim C1 (code bug): the mask-serialization step of `handleSubmit` does
NOT produce the binary mask the claim describes.  Because the mask canvas is
pre-filled with opaque black, every composited pixel has alpha 255, so the
`alpha > 0` binarization rewrites every pixel — including every pixel
outside the drawn rectangle — to opaque white `(255,255,255,255)`.  In
particular, in the 100×100 rectangle scenario the un-drawn pixel `(0,0)` is
serialized as `(255,255,255,255)`, where the claim requires `(0,0,0,0)`. -/
theorem serializeMask_everything_white :
    (∀ (drawing : Buf) (x y : Nat),
        (serializeMask drawing).data x y = ⟨255, 255, 255, 255⟩) ∧
    (serializeMask rectDrawing100).data 0 0 = ⟨255, 255, 255, 255⟩ ∧
    rectDrawing100.data 0 0 = ⟨0, 0, 0, 0⟩ := by
  have hall : ∀ (drawing : Buf) (x y : Nat),
      (serializeMask drawing).data x y = ⟨255, 255, 255, 255⟩ := by
    intro drawing x y
    have ha := srcOverA_opaque_ne_zero (drawing.data x y).a
    show (let p := srcOver (drawing.data x y) ⟨0, 0, 0, 255⟩
          if p.a > 0 then (⟨255, 255, 255, 255⟩ : Pixel) else p) = ⟨255, 255, 255, 255⟩
    unfold srcOver
    simp only []
    rw [if_neg ha]
    simp only []
    rw [if_pos (Nat.pos_of_ne_zero ha)]
  exact ⟨hall, hall rectDrawing100 0 0, rfl⟩

/-- Claim C9: `resizeImage` maps 2000×1000 to exactly (1024, 512); it leaves
any image with both sides at most 1024 unchanged; and when one side exceeds
1024 it scales the longer side down to 1024 and the other side by the same
ratio, rounded. -/
theorem resizeImage_spec :
    resizeImage 2000 1000 = (1024, 512) ∧
    (∀ w h, w ≤ 1024 → h ≤ 1024 → resizeImage w h = (w, h)) ∧
    (∀ w h, h < w → 1024 < w →
      resizeImage w h =
        (1024, (jsRound ((h : ℚ) * ((1024 : ℚ) / (w : ℚ)))).toNat)) ∧
    (∀ w h, w ≤ h → 1024 < h →
      resizeImage w h =
        ((jsRound ((w : ℚ) * ((1024 : ℚ) / (h : ℚ)))).toNat, 1024)) := by
  refine ⟨?_, ?_, ?_, ?_⟩
  · unfold resizeImage MAX_DIMENSION jsRound
    norm_num
    rfl
  · intro w h hw hh
    unfold resizeImage MAX_DIMENSION
    rw [if_neg (by omega)]
  · intro w h hlt hW
    unfold resizeImage MAX_DIMENSION
    rw [if_pos (Or.inl hW), if_pos hlt]
    norm_num
  · intro w h hle hH
    unfold resizeImage MAX_DIMENSION
    rw [if_pos (Or.inr hH), if_neg (by omega)]
    norm_num

/-- Witness for C9: the small-image clause applied at 800×600, together with
the concrete 2000×1000 scenario. -/
theorem resizeImage_spec_witness :
    resizeImage 800 600 = (800, 600) ∧ resizeImage 2000 1000 = (1024, 512) :=
  ⟨resizeImage_spec.2.1 800 600 (by norm_num) (by norm_num), resizeImage_spec.1⟩

/-- A concrete editor state holding a previously stored edited result and a
previously stored upscaled result, with a valid prompt. -/
def stateWithResults : EditorState :=
  ⟨"make it red", some "prevEdit", some "prevUpscale", none, false, clearBuf 1 1⟩

/-- A concrete editor state holding previous results, whose prompt consists
only of whitespace characters. -/
def stateWhitespacePrompt : EditorState :=
  ⟨"   ", some "prevEdit", some "prevUpscale", none, false, clearBuf 1 1⟩

/-- Counterexample to claim C2 as stated: when the remote edit call rejects,
the previously stored edited and upscaled results are NOT the same after the
failed submission — `handleSubmit` clears both to `none` before the call and
the failure path leaves them cleared. -/
theorem handleSubmit_failure_clears_results :
    (handleSubmit (fun _ => .error "network error") stateWithResults).1.editedImage
      ≠ stateWithResults.editedImage ∧
    (handleSubmit (fun _ => .error "network error") stateWithResults).1.upscaledImage
      ≠ stateWithResults.upscaledImage := by
  constructor <;> decide

/-- Claim C2 as amended: when the remote edit call rejects with message
`msg`, the submission reports that single message, the mask buffer (the
drawing canvas) is unchanged, and the edited and upscaled results — cleared
at the start of the submission — are both `none` after the failure (the
previously stored results are not preserved). -/
theorem handleSubmit_failure_state (remote : Buf → Except String String)
    (s : EditorState) (msg : String) (hp : ¬ trimmedEmpty s.prompt)
    (hr : remote (serializeMask s.drawing) = .error msg) :
    (handleSubmit remote s).1.error = some msg ∧
    (handleSubmit remote s).1.drawing = s.drawing ∧
    (handleSubmit remote s).1.editedImage = none ∧
    (handleSubmit remote s).1.upscaledImage = none ∧
    (handleSubmit remote s).1.isLoading = false ∧
    (handleSubmit remote s).2 = true := by
  unfold handleSubmit
  rw [if_neg hp, hr]
  exact ⟨rfl, rfl, rfl, rfl, rfl, rfl⟩

/-- Witness for the amended C2 at a concrete state and a concrete rejecting
remote call. -/
theorem handleSubmit_failure_state_witness :
    (¬ trimmedEmpty stateWithResults.prompt) ∧
    ((handleSubmit (fun _ => .error "boom") stateWithResults).1.error = some "boom" ∧
     (handleSubmit (fun _ => .error "boom") stateWithResults).1.drawing =
       stateWithResults.drawing ∧
     (handleSubmit (fun _ => .error "boom") stateWithResults).1.editedImage = none ∧
     (handleSubmit (fun _ => .error "boom") stateWithResults).1.upscaledImage = none ∧
     (handleSubmit (fun _ => .error "boom") stateWithResults).1.isLoading = false ∧
     (handleSubmit (fun _ => .error "boom") stateWithResults).2 = true) :=
  ⟨by decide,
   handleSubmit_failure_state (fun _ => .error "boom") stateWithResults "boom"
     (by decide) rfl⟩

/-- Counterexample to claim C3 as stated: with a whitespace-only prompt the
submission is rejected and no remote call is made, but the previously stored
result is NOT left unchanged — it is cleared to `none` by the state writes
that precede the validation guard. -/
theorem handleSubmit_whitespace_clears_result :
    (handleSubmit (fun _ => .error "never called") stateWhitespacePrompt).2 = false ∧
    (handleSubmit (fun _ => .error "never called") stateWhitespacePrompt).1.editedImage
      ≠ stateWhitespacePrompt.editedImage := by
  constructor <;> decide

/-- Claim C3 as amended: a whitespace-only prompt is rejected with the local
validation message and no remote edit call is made, the mask buffer is
unchanged, but the previously stored edited and upscaled results are cleared
to `none` rather than left unchanged. -/
theorem handleSubmit_whitespace_rejected (remote : Buf → Except String String)
    (s : EditorState) (hp : trimmedEmpty s.prompt) :
    (handleSubmit remote s).1.error =
      some "Please draw a mask and enter a prompt." ∧
    (handleSubmit remote s).2 = false ∧
    (handleSubmit remote s).1.drawing = s.drawing ∧
    (handleSubmit remote s).1.editedImage = none ∧
    (handleSubmit remote s).1.upscaledImage = none ∧
    (handleSubmit remote s).1.isLoading = false := by
  unfold handleSubmit
  rw [if_pos hp]
  exact ⟨rfl, rfl, rfl, rfl, rfl, rfl⟩

/-- Witness for the amended C3 at a concrete whitespace-only prompt. -/
theorem handleSubmit_whitespace_rejected_witness :
    trimmedEmpty stateWhitespacePrompt.prompt ∧
    ((handleSubmit (fun _ => .ok "img") stateWhitespacePrompt).1.error =
       some "Please draw a mask and enter a prompt." ∧
     (handleSubmit (fun _ => .ok "img") stateWhitespacePrompt).2 = false ∧
     (handleSubmit (fun _ => .ok "img") stateWhitespacePrompt).1.drawing =
       stateWhitespacePrompt.drawing ∧
     (handleSubmit (fun _ => .ok "img") stateWhitespacePrompt).1.editedImage = none ∧
     (handleSubmit (fun _ => .ok "img") stateWhitespacePrompt).1.upscaledImage = none ∧
     (handleSubmit (fun _ => .ok "img") stateWhitespacePrompt).1.isLoading = false) :=
  ⟨by decide,
   handleSubmit_whitespace_rejected (fun _ => .ok "img") stateWhitespacePrompt
     (by decide)⟩

/-- Counterexample to claim C4 as stated: on a 1×1 mask layer, one brush
stroke at the default configured opacity 0.7 followed by a full eraser
stroke over the same pixel at the same configured opacity leaves alpha
`0.7 · (1 − 0.7) = 21/100`, not 0 — `destination-out` at source alpha `op`
only multiplies the existing alpha by `(1 − op)`. -/
theorem drawLineA_eraser_not_zero :
    (drawLineA Tool.eraser (7 / 10) (fun _ _ => true)
      (drawLineA Tool.brush (7 / 10) (fun _ _ => true)
        ⟨1, 1, fun _ _ => 0⟩)).alpha 0 0 = 21 / 100 ∧
    (21 : ℚ) / 100 ≠ 0 := by
  constructor
  · norm_num [drawLineA]
    decide
  · norm_num

/-- Claim C4 as amended: on every pixel covered by the eraser stroke, the
eraser multiplies the existing mask alpha by `(1 − opacity)`, whatever was
previously painted there; the alpha therefore returns exactly to 0 for every
prior mask state only when the eraser is at opacity 1.0. -/
theorem drawLineA_eraser_attenuates (m : AlphaBuf) (op : ℚ)
    (cov : Nat → Nat → Bool) (x y : Nat) (hcov : cov x y = true) :
    (drawLineA Tool.eraser op cov m).alpha x y = m.alpha x y * (1 - op) ∧
    (op = 1 → (drawLineA Tool.eraser op cov m).alpha x y = 0) := by
  unfold drawLineA
  simp only [hcov, if_true, reduceCtorEq]
  constructor
  · simp
  · intro h
    simp [h]

/-- Witness for the amended C4: a fully covering eraser stroke at opacity 1
over a half-painted pixel. -/
theorem drawLineA_eraser_attenuates_witness :
    ((fun _ _ => true) : Nat → Nat → Bool) 0 0 = true ∧
    ((drawLineA Tool.eraser 1 (fun _ _ => true)
        ⟨1, 1, fun _ _ => 1 / 2⟩).alpha 0 0 = (1 / 2 : ℚ) * (1 - 1) ∧
     (1 = (1 : ℚ) → (drawLineA Tool.eraser 1 (fun _ _ => true)
        ⟨1, 1, fun _ _ => 1 / 2⟩).alpha 0 0 = 0)) :=
  ⟨rfl, drawLineA_eraser_attenuates ⟨1, 1, fun _ _ => 1 / 2⟩ 1
    (fun _ _ => true) 0 0 rfl⟩

/-- Invariant of the fill loop: pixels whose INITIAL drawing-layer alpha is
positive are never repainted and never become growth seeds.  The alpha guard
of the loop skips such a pixel before painting or pushing, and painted
pixels all start at alpha 0. -/
theorem fillLoop_preserves (w h : Nat) (image : Nat → Nat → Pixel)
    (sR sG sB : Nat) (fillC : Pixel) (init : Nat → Nat → Pixel)
    (drawing : Nat → Nat → Pixel) (nv : Finset (Nat × Nat))
    (stack : List (Int × Int)) (seeds : List (Nat × Nat)) :
    (∀ a b, (init a b).a > 0 → drawing a b = init a b ∧ (a, b) ∉ seeds) →
    ∀ a b, (init a b).a > 0 →
      (fillLoop w h image sR sG sB fillC drawing nv stack seeds).1 a b =
        init a b ∧
      (a, b) ∉ (fillLoop w h image sR sG sB fillC drawing nv stack seeds).2 := by
  induction drawing, nv, stack, seeds using fillLoop.induct w h image sR sG sB fillC with
  | case1 drawing nv seeds =>
    intro hinv a b hab
    simp only [fillLoop]
    exact hinv a b hab
  | case2 drawing nv seeds x y rest hoob ih =>
    intro hinv a b hab
    rw [fillLoop, if_pos hoob]
    exact ih hinv a b hab
  | case3 drawing nv seeds x y rest hoob hv halpha ih =>
    intro hinv a b hab
    rw [fillLoop, if_neg hoob, dif_pos hv, if_pos halpha]
    exact ih hinv a b hab
  | case4 drawing nv seeds x y rest hoob hv halpha hcolor ih =>
    intro hinv a b hab
    rw [fillLoop, if_neg hoob, dif_pos hv, if_neg halpha, if_pos hcolor]
    refine ih ?_ a b hab
    intro a' b' hab'
    have h1 := hinv a' b' hab'
    have hne : ¬(a' = x.toNat ∧ b' = y.toNat) := by
      rintro ⟨rfl, rfl⟩
      exact halpha (h1.1 ▸ hab')
    refine ⟨?_, ?_⟩
    · unfold updatePix
      rw [if_neg hne]
      exact h1.1
    · intro hmem
      rcases List.mem_cons.mp hmem with heq | htl
      · exact hne ⟨congrArg Prod.fst heq, congrArg Prod.snd heq⟩
      · exact h1.2 htl
  | case5 drawing nv seeds x y rest hoob hv halpha hcolor ih =>
    intro hinv a b hab
    rw [fillLoop, if_neg hoob, dif_pos hv, if_neg halpha, if_neg hcolor]
    exact ih hinv a b hab
  | case6 drawing nv seeds x y rest hoob hv ih =>
    intro hinv a b hab
    rw [fillLoop, if_neg hoob, dif_neg hv]
    exact ih hinv a b hab

/-- Claim C5: every pixel whose mask-layer alpha is positive before a
`floodFill` call keeps its exact pixel value, and is never used as a growth
seed (its neighbors are never pushed on account of it), so the fill never
crosses an already-painted boundary. -/
theorem floodFill_boundary (startPos : ℚ × ℚ) (opacity : ℚ)
    (image drawing : Buf) (a b : Nat)
    (hp : (drawing.data a b).a > 0) :
    (floodFill startPos opacity image drawing).1 a b = drawing.data a b ∧
    (a, b) ∉ (floodFill startPos opacity image drawing).2 := by
  unfold floodFill
  exact fillLoop_preserves _ _ _ _ _ _ _ drawing.data drawing.data _ _ _
    (fun a' b' _ => ⟨rfl, List.not_mem_nil _⟩) a b hp

/-- Witness for C5: a 1×1 canvas whose single pixel is already painted; the
fill from `(0,0)` leaves it unchanged and records no growth seed. -/
theorem floodFill_boundary_witness :
    ((⟨1, 1, fun _ _ => ⟨192, 132, 252, 100⟩⟩ : Buf).data 0 0).a > 0 ∧
    ((floodFill (0, 0) 1 (clearBuf 1 1)
        ⟨1, 1, fun _ _ => ⟨192, 132, 252, 100⟩⟩).1 0 0 =
      (⟨1, 1, fun _ _ => ⟨192, 132, 252, 100⟩⟩ : Buf).data 0 0 ∧
     (0, 0) ∉ (floodFill (0, 0) 1 (clearBuf 1 1)
        ⟨1, 1, fun _ _ => ⟨192, 132, 252, 100⟩⟩).2) :=
  ⟨by decide,
   floodFill_boundary (0, 0) 1 (clearBuf 1 1)
     ⟨1, 1, fun _ _ => ⟨192, 132, 252, 100⟩⟩ 0 0 (by decide)⟩

/-- Claim C6: a `floodFill` whose floored start coordinates lie outside the
buffer is a no-op — the single out-of-bounds candidate is discarded by the
loop's bounds check, the loop ends with the stack empty, the drawing layer
is returned unchanged, and no growth seed was recorded. -/
theorem floodFill_oob_noop (startPos : ℚ × ℚ) (opacity : ℚ)
    (image drawing : Buf)
    (hoob : ⌊startPos.1⌋ < 0 ∨ (image.width : ℤ) ≤ ⌊startPos.1⌋ ∨
            ⌊startPos.2⌋ < 0 ∨ (image.height : ℤ) ≤ ⌊startPos.2⌋) :
    floodFill startPos opacity image drawing = (drawing.data, []) := by
  unfold floodFill
  rw [fillLoop, if_pos hoob, fillLoop]

/-- Witness for C6: filling from start point `(-3.5, 0)` on a 2×2 image. -/
theorem floodFill_oob_noop_witness :
    (⌊(-7 / 2 : ℚ)⌋ < 0 ∨ ((clearBuf 2 2).width : ℤ) ≤ ⌊(-7 / 2 : ℚ)⌋ ∨
     ⌊(0 : ℚ)⌋ < 0 ∨ ((clearBuf 2 2).height : ℤ) ≤ ⌊(0 : ℚ)⌋) ∧
    floodFill (-7 / 2, 0) (7 / 10) (clearBuf 2 2) (clearBuf 2 2) =
      ((clearBuf 2 2).data, []) :=
  ⟨by norm_num,
   floodFill_oob_noop (-7 / 2, 0) (7 / 10) (clearBuf 2 2) (clearBuf 2 2)
     (by norm_num)⟩

/-- Claim C7: the auto-mask run is destructive — it clears the mask buffer
before compositing, so the final buffer depends on the segmentation output
`Y` alone (any two prior contents `X`, `X'` of the same dimensions give the
same result), and that result is exactly the normalization of `Y`
composited onto a cleared canvas. -/
theorem autoMask_destructive (opacity : ℚ) (X Xp Y : Buf)
    (hw : X.width = Xp.width) (hh : X.height = Xp.height) :
    handleAutoMaskResult opacity X Y = handleAutoMaskResult opacity Xp Y ∧
    ∀ x y, (handleAutoMaskResult opacity X Y).data x y =
           (dropInvisible (normalizeSeg opacity Y)).data x y := by
  constructor
  · unfold handleAutoMaskResult
    rw [hw, hh]
  · intro x y
    show srcOver ((normalizeSeg opacity Y).data x y) ⟨0, 0, 0, 0⟩ =
      (dropInvisible (normalizeSeg opacity Y)).data x y
    rw [srcOver_transparent]
    rfl

/-- Witness for C7: two different 2×2 prior mask contents and a concrete
segmentation output give the same final buffer. -/
theorem autoMask_destructive_witness :
    (clearBuf 2 2).width = (⟨2, 2, fun _ _ => ⟨9, 9, 9, 9⟩⟩ : Buf).width ∧
    (clearBuf 2 2).height = (⟨2, 2, fun _ _ => ⟨9, 9, 9, 9⟩⟩ : Buf).height ∧
    (handleAutoMaskResult (7 / 10) (clearBuf 2 2)
        ⟨2, 2, fun _ _ => ⟨210, 220, 230, 0⟩⟩ =
      handleAutoMaskResult (7 / 10) ⟨2, 2, fun _ _ => ⟨9, 9, 9, 9⟩⟩
        ⟨2, 2, fun _ _ => ⟨210, 220, 230, 0⟩⟩ ∧
     ∀ x y, (handleAutoMaskResult (7 / 10) (clearBuf 2 2)
        ⟨2, 2, fun _ _ => ⟨210, 220, 230, 0⟩⟩).data x y =
       (dropInvisible (normalizeSeg (7 / 10)
          ⟨2, 2, fun _ _ => ⟨210, 220, 230, 0⟩⟩)).data x y) :=
  ⟨rfl, rfl,
   autoMask_destructive (7 / 10) (clearBuf 2 2) ⟨2, 2, fun _ _ => ⟨9, 9, 9, 9⟩⟩
     ⟨2, 2, fun _ _ => ⟨210, 220, 230, 0⟩⟩ rfl rfl⟩

/-- Claim C8: in the auto-mask pixel loop, a segmentation pixel is rewritten
to the accent color `(192,132,252)` with alpha `255 × opacity` (stored as a
clamped byte) when all three of its color channels are strictly greater than
200; otherwise its color bytes are preserved and its alpha is set to 0; and
whenever the stored accent alpha is nonzero, the background classification
holds if and only if the output pixel's alpha is nonzero. -/
theorem autoMask_pixel_classification (opacity : ℚ) (seg : Buf) (x y : Nat) :
    (((seg.data x y).r > 200 ∧ (seg.data x y).g > 200 ∧ (seg.data x y).b > 200) →
      (normalizeSeg opacity seg).data x y =
        ⟨192, 132, 252, uint8Clamp (255 * opacity)⟩) ∧
    (¬((seg.data x y).r > 200 ∧ (seg.data x y).g > 200 ∧ (seg.data x y).b > 200) →
      ((normalizeSeg opacity seg).data x y).a = 0 ∧
      ((normalizeSeg opacity seg).data x y).r = (seg.data x y).r ∧
      ((normalizeSeg opacity seg).data x y).g = (seg.data x y).g ∧
      ((normalizeSeg opacity seg).data x y).b = (seg.data x y).b) ∧
    (0 < uint8Clamp (255 * opacity) →
      (((seg.data x y).r > 200 ∧ (seg.data x y).g > 200 ∧ (seg.data x y).b > 200) ↔
        ((normalizeSeg opacity seg).data x y).a ≠ 0)) := by
  by_cases hbg : isWhite (seg.data x y)
  · have hres : (normalizeSeg opacity seg).data x y =
        ⟨192, 132, 252, uint8Clamp (255 * opacity)⟩ := by
      show (if isWhite (seg.data x y) then _ else _) = _
      rw [if_pos hbg]
    exact ⟨fun _ => hres, fun hn => absurd hbg hn,
      fun hop => ⟨fun _ => by rw [hres]; exact Nat.pos_iff_ne_zero.mp hop,
                  fun _ => hbg⟩⟩
  · have hres : (normalizeSeg opacity seg).data x y =
        ⟨(seg.data x y).r, (seg.data x y).g, (seg.data x y).b, 0⟩ := by
      show (if isWhite (seg.data x y) then _ else _) = _
      rw [if_neg hbg]
    refine ⟨fun hn => absurd hn hbg,
      fun _ => by rw [hres]; exact ⟨rfl, rfl, rfl, rfl⟩,
      fun _ => ⟨fun hn => absurd hn hbg, fun ha => absurd (by rw [hres]) ha⟩⟩

/-- Witness for C8: a concrete bright pixel at opacity 0.7, whose stored
accent alpha `uint8Clamp (255 · 0.7) = 178` is positive. -/
theorem autoMask_pixel_classification_witness :
    ((⟨1, 1, fun _ _ => ⟨210, 220, 230, 0⟩⟩ : Buf).data 0 0).r > 200 ∧
    0 < uint8Clamp (255 * (7 / 10)) ∧
    ((((⟨1, 1, fun _ _ => ⟨210, 220, 230, 0⟩⟩ : Buf).data 0 0).r > 200 ∧
      ((⟨1, 1, fun _ _ => ⟨210, 220, 230, 0⟩⟩ : Buf).data 0 0).g > 200 ∧
      ((⟨1, 1, fun _ _ => ⟨210, 220, 230, 0⟩⟩ : Buf).data 0 0).b > 200) →
      (normalizeSeg (7 / 10) ⟨1, 1, fun _ _ => ⟨210, 220, 230, 0⟩⟩).data 0 0 =
        ⟨192, 132, 252, uint8Clamp (255 * (7 / 10))⟩) :=
  ⟨by norm_num, by norm_num [uint8Clamp],
   (autoMask_pixel_classification (7 / 10)
     ⟨1, 1, fun _ _ => ⟨210, 220, 230, 0⟩⟩ 0 0).1⟩

/-- Claim C10: with the fill tool active, a pointer-down performs exactly one
flood fill of the drawing canvas and returns without setting the `isDrawing`
flag or any gesture refs; consequently every subsequent pointer-move while
the button is held finds `isDrawing` unset and leaves the whole state — in
particular the mask buffer — unchanged. -/
theorem fill_tool_no_drag (dl ds : (ℚ × ℚ) → (ℚ × ℚ) → Buf → Buf)
    (opacity : ℚ) (image : Buf) (pos : ℚ × ℚ) (st : GestureState)
    (hidle : st.isDrawing = false) :
    handleMouseDown opacity image Tool.fill pos st =
      { st with drawing := ⟨st.drawing.width, st.drawing.height,
                            (floodFill pos opacity image st.drawing).1⟩ } ∧
    (handleMouseDown opacity image Tool.fill pos st).isDrawing = false ∧
    (handleMouseDown opacity image Tool.fill pos st).lastPoint = st.lastPoint ∧
    (handleMouseDown opacity image Tool.fill pos st).shapeStart = st.shapeStart ∧
    (handleMouseDown opacity image Tool.fill pos st).snapshot = st.snapshot ∧
    ∀ moves : List (ℚ × ℚ),
      moves.foldl (fun s q => handleMouseMove dl ds Tool.fill q s)
        (handleMouseDown opacity image Tool.fill pos st) =
      handleMouseDown opacity image Tool.fill pos st := by
  have hdown : handleMouseDown opacity image Tool.fill pos st =
      { st with drawing := ⟨st.drawing.width, st.drawing.height,
                            (floodFill pos opacity image st.drawing).1⟩ } := by
    unfold handleMouseDown
    rw [if_pos rfl]
  have hflag : (handleMouseDown opacity image Tool.fill pos st).isDrawing
      = false := by
    rw [hdown]
    exact hidle
  have hmove : ∀ q, handleMouseMove dl ds Tool.fill q
      (handleMouseDown opacity image Tool.fill pos st) =
      handleMouseDown opacity image Tool.fill pos st := by
    intro q
    unfold handleMouseMove
    rw [if_pos hflag]
  refine ⟨hdown, hflag, by rw [hdown], by rw [hdown], by rw [hdown], ?_⟩
  intro moves
  induction moves with
  | nil => rfl
  | cons qh qt ih => rw [List.foldl_cons, hmove qh, ih]

/-- Witness for C10 at a concrete idle gesture state, with trivial raster
primitives. -/
theorem fill_tool_no_drag_witness :
    (⟨false, none, none, none, clearBuf 1 1⟩ : GestureState).isDrawing = false ∧
    handleMouseDown 1 (clearBuf 1 1) Tool.fill (0, 0)
        ⟨false, none, none, none, clearBuf 1 1⟩ =
      { (⟨false, none, none, none, clearBuf 1 1⟩ : GestureState) with
          drawing := ⟨(clearBuf 1 1).width, (clearBuf 1 1).height,
            (floodFill (0, 0) 1 (clearBuf 1 1) (clearBuf 1 1)).1⟩ } :=
  ⟨rfl,
   (fill_tool_no_drag (fun _ _ b => b) (fun _ _ b => b) 1 (clearBuf 1 1) (0, 0)
     ⟨false, none, none, none, clearBuf 1 1⟩ rfl).1⟩

end AIPhotoEditor
